import Mathlib

/-!
Verification development for the `datacard-producer` repository
(`datacard_producer/datacard_builder.py`).

The file shallowly embeds the two classes of the source file:

* `Shape` — parsing a '#'-delimited histogram key name into metadata fields;
* `DatacardBuilder` — the orchestration layer around the external
  CombineHarvester toolkit and the ROOT histogram file library.

Python strings that get split or concatenated character by character are
modelled as `List Char`; other identifiers stay `String`.  Fallible Python
code (raising `Exception`, `IndexError`, `KeyError`) is modelled with
`Option`/`Except`.  Behaviour of the external toolkit (CombineHarvester) and
of the file library (ROOT) is not part of the repository; where a claim
needs it, the corresponding definition carries a doc comment starting with
"Modelled from the spec".
-/

namespace DCP

/-- Python runtime values passed to the builder's public methods: scalar
strings or integers, and flat lists of scalars, as the callers use them. -/
inductive PyScalar where
  | str (s : String)
  | int (n : Int)
deriving DecidableEq

/-- A Python argument: either a scalar or a list (what `isinstance(x, list)`
distinguishes in `_convert_to_list`). -/
inductive PyVal where
  | scalar (v : PyScalar)
  | list (l : List PyScalar)
deriving DecidableEq

/-- `DatacardBuilder._convert_to_list` (lines 28-32): wrap a non-list value
into a one-element list; return list values unchanged. -/
def convert_to_list (x : PyVal) : PyVal :=
  match x with
  | .list l => .list l
  | .scalar v => .list [v]

def PyVal.isList : PyVal → Bool
  | .list _ => true
  | .scalar _ => false

/-- Unwrap a list value into its elements (the external toolkit iterates the
list arguments it receives). -/
def asList (x : PyVal) : List PyScalar :=
  match x with
  | .list l => l
  | .scalar v => [v]

/-! ### Shape name parsing -/

/-- Split on the '#' character with Python `str.split('#')` semantics:
every occurrence of the separator splits, empty pieces are kept. -/
def splitHash : List Char → List (List Char)
  | [] => [[]]
  | c :: cs =>
    if c = '#' then [] :: splitHash cs
    else
      match splitHash cs with
      | [] => [[c]]
      | s :: ss => (c :: s) :: ss

/-- Python list indexing with a non-negative index; `none` models the
`IndexError` raised when the index is out of range. -/
def nth {α : Type} : List α → Nat → Option α
  | [], _ => none
  | a :: _, 0 => some a
  | _ :: l, n + 1 => nth l n

/-- Python `name[-1]`: the last character of a string; `none` models the
`IndexError` raised on the empty string. -/
def lastChar : List Char → Option Char
  | [] => none
  | c :: cs =>
    match lastChar cs with
    | none => some c
    | some d => some d

/-- The field list enumerated in `Shape.__init__` (lines 196-202), in the
order used to build the `_legend` dictionary. -/
def legendList : List String :=
  ["channel", "category", "process", "analysis", "era", "variable", "mass",
   "variation"]

/-- Position lookup in a list of field names, starting at index `i`. -/
def findIdxFrom (f : String) : List String → Nat → Option Nat
  | [], _ => none
  | c :: cs, i => if c = f then some i else findIdxFrom f cs (i + 1)

/-- The `_legend` dictionary of `Shape.__init__`: field name to position;
`none` models the `KeyError` on an unknown field name. -/
def legendIdx (f : String) : Option Nat :=
  findIdxFrom f legendList 0

structure Shape where
  name : List Char
  properties : List (List Char)
deriving DecidableEq

/-- `Shape.__init__` (lines 194-205): store the name, keep the non-empty
pieces of the '#'-split as `_properties`, and append `"Nominal"` when the
name ends in '#'.  The indexing `self._name[-1]` raises `IndexError` on the
empty name, hence `none` there. -/
def Shape.build (name : List Char) : Option Shape :=
  let props := (splitHash name).filter (fun p => p ≠ [])
  match lastChar name with
  | none => none
  | some c => some ⟨name, if c = '#' then props ++ ["Nominal".toList] else props⟩

/-- `Shape.get_property` (lines 220-221): `self._properties[self._legend[name]]`.
An unknown field name (`KeyError`) or an index past the end of
`_properties` (`IndexError`) both become `none`. -/
def Shape.get_property (s : Shape) (f : String) : Option (List Char) :=
  (legendIdx f).bind (fun i => nth s.properties i)

def Shape.channel (s : Shape) : Option (List Char) := s.get_property "channel"
def Shape.category (s : Shape) : Option (List Char) := s.get_property "category"
def Shape.process (s : Shape) : Option (List Char) := s.get_property "process"
def Shape.analysis (s : Shape) : Option (List Char) := s.get_property "analysis"
def Shape.era (s : Shape) : Option (List Char) := s.get_property "era"
def Shape.variable_ (s : Shape) : Option (List Char) := s.get_property "variable"
def Shape.mass (s : Shape) : Option (List Char) := s.get_property "mass"
def Shape.variation (s : Shape) : Option (List Char) := s.get_property "variation"

/-! ### The CombineHarvester state model

The toolkit itself is external to the repository; the spec describes it as
the layer holding observations, processes and systematics.  The model below
keeps exactly the bookkeeping the builder's claims touch. -/

/-- Modelled from the spec: an observation entry of the toolkit, with the
metadata the builder reads back (`analysis()`, `era()`, `channel()`,
`bin()`) and the shape/rate the builder overwrites (`set_shape`,
`set_rate`).  Histogram contents and rates are abstracted to integers. -/
structure Observation where
  mass : PyScalar
  analysis : PyScalar
  era : PyScalar
  channel : PyScalar
  bin : PyScalar
  shape : Int
  rate : Int
deriving DecidableEq

/-- Modelled from the spec: a process entry (signal or background). -/
structure Proc where
  mass : PyScalar
  analysis : PyScalar
  era : PyScalar
  channel : PyScalar
  bin : PyScalar
  process : PyScalar
  signal : Bool
  shape : Int
  rate : Int
deriving DecidableEq

/-- Modelled from the spec: a registered systematic uncertainty entry,
tagged with the process it applies to. -/
structure Systematic where
  sname : String
  stype : String
  strength : Rat
  channel : PyScalar
  process : PyScalar
deriving DecidableEq

/-- Modelled from the spec: the toolkit state the builder drives. -/
structure CombineHarvester where
  observations : List Observation
  procs : List Proc
  systs : List Systematic
  groups : List (String × List String)
deriving DecidableEq

/-- Modelled from the spec: a `cp()` view of the current entries that the
chained filter calls narrow down. -/
structure CHView where
  observations : List Observation
  procs : List Proc
deriving DecidableEq

def CombineHarvester.cp (cb : CombineHarvester) : CHView :=
  ⟨cb.observations, cb.procs⟩

def CHView.channelF (v : CHView) (l : List PyScalar) : CHView :=
  ⟨v.observations.filter (fun o => decide (o.channel ∈ l)),
   v.procs.filter (fun p => decide (p.channel ∈ l))⟩

def CHView.analysisF (v : CHView) (l : List PyScalar) : CHView :=
  ⟨v.observations.filter (fun o => decide (o.analysis ∈ l)),
   v.procs.filter (fun p => decide (p.analysis ∈ l))⟩

def CHView.eraF (v : CHView) (l : List PyScalar) : CHView :=
  ⟨v.observations.filter (fun o => decide (o.era ∈ l)),
   v.procs.filter (fun p => decide (p.era ∈ l))⟩

def CHView.binF (v : CHView) (l : List PyScalar) : CHView :=
  ⟨v.observations.filter (fun o => decide (o.bin ∈ l)),
   v.procs.filter (fun p => decide (p.bin ∈ l))⟩

def CHView.processF (v : CHView) (l : List PyScalar) : CHView :=
  ⟨v.observations, v.procs.filter (fun p => decide (p.process ∈ l))⟩

/-- Modelled from the spec: `backgrounds()` keeps the non-signal processes
(observations are not processes and drop out of the selection). -/
def CHView.backgroundsF (v : CHView) : CHView :=
  ⟨[], v.procs.filter (fun p => !p.signal)⟩

/-- Modelled from the spec: `signals()` keeps the signal processes. -/
def CHView.signalsF (v : CHView) : CHView :=
  ⟨[], v.procs.filter (fun p => p.signal)⟩

/-- Modelled from the spec: `GetShape()` sums the shapes of the selected
processes. -/
def CHView.GetShape (v : CHView) : Int :=
  (v.procs.map (fun p => p.shape)).sum

/-- Modelled from the spec: `GetRate()` sums the rates of the selected
processes. -/
def CHView.GetRate (v : CHView) : Int :=
  (v.procs.map (fun p => p.rate)).sum

/-- Modelled from the spec: `AddObservations` creates one observation per
combination of the given masses, analyses, eras, channels and bins, with
empty shape and zero rate until shapes are extracted. -/
def CombineHarvester.AddObservations (cb : CombineHarvester)
    (mass analysis era channel bin : PyVal) : CombineHarvester :=
  { cb with observations := cb.observations ++
      (asList mass).flatMap (fun m =>
        (asList analysis).flatMap (fun a =>
          (asList era).flatMap (fun e =>
            (asList channel).flatMap (fun c =>
              (asList bin).map (fun bn => ⟨m, a, e, c, bn, 0, 0⟩))))) }

/-- Modelled from the spec: `AddProcesses` creates one process entry per
combination, flagged as signal or background by `flag`. -/
def CombineHarvester.AddProcesses (cb : CombineHarvester)
    (mass analysis era channel process bin : PyVal) (flag : Bool) :
    CombineHarvester :=
  { cb with procs := cb.procs ++
      (asList mass).flatMap (fun m =>
        (asList analysis).flatMap (fun a =>
          (asList era).flatMap (fun e =>
            (asList channel).flatMap (fun c =>
              (asList process).flatMap (fun pr =>
                (asList bin).map (fun bn =>
                  ⟨m, a, e, c, bn, pr, flag, 0, 0⟩)))))) }

/-- Modelled from the spec: `AddSyst` on a filtered view registers one
systematic entry per process in the view, carrying name, type and the
strength from the `SystMap`. -/
def CombineHarvester.AddSystTo (cb : CombineHarvester) (v : CHView)
    (sname stype : String) (strength : Rat) : CombineHarvester :=
  { cb with systs := cb.systs ++
      v.procs.map (fun p => ⟨sname, stype, strength, p.channel, p.process⟩) }

/-! ### The DatacardBuilder -/

structure DatacardBuilder where
  input_filename : String
  shapes : List Shape
  cb : CombineHarvester
  shapes_extracted : Bool
deriving DecidableEq

/-- The loop of `DatacardBuilder._get_shapes` (lines 37-39): build a `Shape`
per key name, left to right, propagating the first failure. -/
def build_shapes : List (List Char) → Except String (List Shape)
  | [] => Except.ok []
  | k :: ks =>
    match Shape.build k with
    | none => Except.error "IndexError"
    | some s =>
      match build_shapes ks with
      | Except.error e => Except.error e
      | Except.ok ss => Except.ok (s :: ss)

/-- `DatacardBuilder._get_shapes` (lines 34-43), over the list of key names
of the input file: one `Shape` per key, and a fatal error when no shapes
are found. -/
def get_shapes (keys : List (List Char)) : Except String (List Shape) :=
  match build_shapes keys with
  | Except.error e => Except.error e
  | Except.ok shapes =>
    if shapes.length = 0 then Except.error "No shapes found."
    else Except.ok shapes

/-- `DatacardBuilder.__init__` (lines 13-23).  Modelled from the spec: the
file system is a map from filenames to the file's list of key names
(`os.path.exists` and the `ROOT.TFile` key enumeration are external); a
missing file is a fatal error, and `_shapes_extracted` starts `False`. -/
def DatacardBuilder.init (fs : String → Option (List (List Char)))
    (input_filename : String) : Except String DatacardBuilder :=
  match fs input_filename with
  | none => Except.error "File does not exist."
  | some keys =>
    match get_shapes keys with
    | Except.error e => Except.error e
    | Except.ok shapes =>
      Except.ok ⟨input_filename, shapes, ⟨[], [], [], []⟩, false⟩

/-- `add_observation` (lines 45-54): convert the five arguments to lists
and hand them to `AddObservations`. -/
def DatacardBuilder.add_observation (b : DatacardBuilder)
    (mass analysis era channel category : PyVal) : DatacardBuilder :=
  { b with cb := b.cb.AddObservations (convert_to_list mass)
                   (convert_to_list analysis) (convert_to_list era)
                   (convert_to_list channel) (convert_to_list category) }

/-- `add_processes` (lines 64-76): convert mass, analysis, era, channel and
category to lists — the process argument is passed through unchanged — and
hand them to `AddProcesses` with the signal flag. -/
def DatacardBuilder.add_processes (b : DatacardBuilder)
    (mass analysis era channel process category : PyVal) (flag : Bool) :
    DatacardBuilder :=
  { b with cb := b.cb.AddProcesses (convert_to_list mass)
                   (convert_to_list analysis) (convert_to_list era)
                   (convert_to_list channel) process
                   (convert_to_list category) flag }

/-- `add_signals` (lines 56-58): `add_processes` with flag `True`. -/
def DatacardBuilder.add_signals (b : DatacardBuilder)
    (mass analysis era channel process category : PyVal) : DatacardBuilder :=
  b.add_processes mass analysis era channel process category true

/-- `add_backgrounds` (lines 60-62): `add_processes` with flag `False`. -/
def DatacardBuilder.add_backgrounds (b : DatacardBuilder)
    (mass analysis era channel process category : PyVal) : DatacardBuilder :=
  b.add_processes mass analysis era channel process category false

/-- `add_shape_systematic` (lines 78-83): convert channel and process to
lists, filter the view down to them and register a "shape" systematic. -/
def DatacardBuilder.add_shape_systematic (b : DatacardBuilder)
    (sname : String) (strength : Rat) (channel process : PyVal) :
    DatacardBuilder :=
  let channelL := convert_to_list channel
  let processL := convert_to_list process
  { b with cb := b.cb.AddSystTo
                   ((b.cb.cp.channelF (asList channelL)).processF
                     (asList processL))
                   sname "shape" strength }

/-- `add_normalization_systematic` (lines 85-90): same as
`add_shape_systematic` but with type "lnN". -/
def DatacardBuilder.add_normalization_systematic (b : DatacardBuilder)
    (sname : String) (strength : Rat) (channel process : PyVal) :
    DatacardBuilder :=
  let channelL := convert_to_list channel
  let processL := convert_to_list process
  { b with cb := b.cb.AddSystTo
                   ((b.cb.cp.channelF (asList channelL)).processF
                     (asList processL))
                   sname "lnN" strength }

/-! ### extract_shapes and the naming template -/

/-- Prefix matching: `some rest` when `pat` starts the string, with `rest`
the remainder. -/
def stripPre : List Char → List Char → Option (List Char)
  | [], l => some l
  | _ :: _, [] => none
  | p :: ps, c :: cs => if p = c then stripPre ps cs else none

/-- Fuel-bounded worker for left-to-right, non-overlapping replacement of
the pattern `p :: ps` by `rep`; the fuel is always at least the string
length at the call sites. -/
def goF (p : Char) (ps rep : List Char) : Nat → List Char → List Char
  | _, [] => []
  | 0, l => l
  | fuel + 1, c :: cs =>
    match stripPre (p :: ps) (c :: cs) with
    | some rest => rep ++ goF p ps rep fuel rest
    | none => c :: goF p ps rep fuel cs

def replaceListGo (p : Char) (ps rep s : List Char) : List Char :=
  goF p ps rep s.length s

/-- Python `str.replace(pat, rep)`: every non-overlapping occurrence,
scanned left to right.  (The code only calls it with non-empty patterns.) -/
def replaceList (pat rep s : List Char) : List Char :=
  match pat with
  | [] => s
  | p :: ps => replaceListGo p ps rep s

/-- `DatacardBuilder._get_template` (lines 105-108): the formatted naming
pattern with the channel, analysis, era and variable filled in. -/
def get_template (channel analysis era variable_ : List Char) : List Char :=
  "#".toList ++ channel ++ "#$BIN#$PROCESS#".toList ++ analysis ++
    "#".toList ++ era ++ "#".toList ++ variable_ ++
    "#$MASS#$SYSTEMATIC".toList

/-- The nominal pattern built in `extract_shapes` (line 102):
`template.replace("$SYSTEMATIC", "")`. -/
def nominal_pattern (channel analysis era variable_ : List Char) : List Char :=
  replaceList "$SYSTEMATIC".toList []
    (get_template channel analysis era variable_)

/-- Modelled from the spec: `ExtractShapes` resolves a histogram name from
the pattern by substituting the `$BIN`, `$PROCESS` and `$MASS`
placeholders. -/
def instantiate_pattern (pat bin process mass : List Char) : List Char :=
  replaceList "$MASS".toList mass
    (replaceList "$PROCESS".toList process
      (replaceList "$BIN".toList bin pat))

/-- The full name `extract_shapes` looks up for a nominal shape: the
template with `$SYSTEMATIC` removed and the remaining placeholders
substituted. -/
def nominal_name (channel analysis era variable_ bin process mass : List Char) :
    List Char :=
  instantiate_pattern (nominal_pattern channel analysis era variable_)
    bin process mass

/-- `extract_shapes` (lines 92-103): the toolkit call itself is external;
in the model the observable effect on the builder is that the
shapes-extracted flag is set. -/
def DatacardBuilder.extract_shapes (b : DatacardBuilder)
    (channel analysis era variable_ : List Char) (bin : Option PyVal) :
    DatacardBuilder :=
  { b with shapes_extracted := true }

/-! ### The guarded operations -/

/-- `add_bin_by_bin_systematics` (lines 123-137): fatal error before shapes
are extracted; afterwards the bin-by-bin factory runs (external) and the
two nuisance groups are set. -/
def DatacardBuilder.add_bin_by_bin_systematics (b : DatacardBuilder)
    (processes : PyVal) (add_threshold merge_threshold : Rat)
    (fix_norm : Bool) : DatacardBuilder × Except String Unit :=
  if b.shapes_extracted = false then
    (b, Except.error "Shapes need to be extracted first.")
  else
    ({ b with cb := { b.cb with groups := b.cb.groups ++
                        [("bbb", [".*_bin_\\d+"]),
                         ("syst_plus_bbb", [".*"])] } },
     Except.ok ())

/-- The inner `_replace_observation_by_asimov_dataset` (lines 144-152):
narrow the toolkit down to the observation's analysis, era, channel and
bin, and overwrite the observation's shape and rate with the sums of the
background and signal selections. -/
def asimovReplace (cb : CombineHarvester) (o : Observation) : Observation :=
  let v := (((cb.cp.analysisF [o.analysis]).eraF [o.era]).channelF
      [o.channel]).binF [o.bin]
  let background := v.backgroundsF
  let signal := v.signalsF
  { o with shape := background.GetShape + signal.GetShape,
           rate := background.GetRate + signal.GetRate }

/-- `replace_observation_by_asimov_dataset` (lines 139-156): fatal error
before shapes are extracted; afterwards every observation in the selected
categories is replaced by the Asimov dataset. -/
def DatacardBuilder.replace_observation_by_asimov_dataset
    (b : DatacardBuilder) (category : PyVal) :
    DatacardBuilder × Except String Unit :=
  if b.shapes_extracted = false then
    (b, Except.error "Shapes need to be extracted first.")
  else
    let cats := asList (convert_to_list category)
    ({ b with cb := { b.cb with observations :=
                        b.cb.observations.map (fun o =>
                          if o.bin ∈ cats then asimovReplace b.cb o else o) } },
     Except.ok ())

/-! ### Characterisation helpers used by the claims -/

def isOkE {α : Type} : Except String α → Bool
  | Except.ok _ => true
  | Except.error _ => false

/-- The processes of `cb` matching an observation's analysis, era, channel
and bin, restricted to signal (`sig = true`) or background entries. -/
def matchingProcs (cb : CombineHarvester) (o : Observation) (sig : Bool) :
    List Proc :=
  cb.procs.filter (fun p => decide (p.signal = sig ∧ p.analysis = o.analysis ∧
    p.era = o.era ∧ p.channel = o.channel ∧ p.bin = o.bin))

def sumShapes (ps : List Proc) : Int := (ps.map (fun p => p.shape)).sum

def sumRates (ps : List Proc) : Int := (ps.map (fun p => p.rate)).sum

/-- The processes a channel/process filter chain keeps. -/
def selectedProcs (cb : CombineHarvester) (chs prs : List PyScalar) :
    List Proc :=
  cb.procs.filter (fun p =>
    decide (p.process ∈ prs) && decide (p.channel ∈ chs))

/-! ### Sample data used by the concrete witnesses -/

def sampleName : List Char := "#mt#cat#ggH#ana#2017#mva#125#jesUp".toList

def sampleShape : Shape :=
  ⟨sampleName,
   ["mt".toList, "cat".toList, "ggH".toList, "ana".toList, "2017".toList,
    "mva".toList, "125".toList, "jesUp".toList]⟩

def sevenName : List Char := "#tt#cat#qqH#ana#2016#pt#125".toList

def sevenShape : Shape :=
  ⟨sevenName,
   ["tt".toList, "cat".toList, "qqH".toList, "ana".toList, "2016".toList,
    "pt".toList, "125".toList]⟩

def nominalizedName : List Char := "#tt#cat#qqH#ana#2016#pt#125#".toList

def nominalizedShape : Shape :=
  ⟨nominalizedName,
   ["tt".toList, "cat".toList, "qqH".toList, "ana".toList, "2016".toList,
    "pt".toList, "125".toList, "Nominal".toList]⟩


/-- A sample file system for the builder-construction witness: one file
with one key. -/
def sampleFS : String → Option (List (List Char)) :=
  fun n => if n = "shapes.root" then some [sampleName] else none

def sampleInitBuilder : DatacardBuilder :=
  ⟨"shapes.root", [sampleShape], ⟨[], [], [], []⟩, false⟩

def obsW : Observation :=
  ⟨.int 125, .str "ana", .str "2017", .str "mt", .str "cat", 0, 0⟩

def procSig : Proc :=
  ⟨.int 125, .str "ana", .str "2017", .str "mt", .str "cat", .str "ggH",
   true, 5, 7⟩

def procBkg : Proc :=
  ⟨.int 125, .str "ana", .str "2017", .str "mt", .str "cat", .str "ZTT",
   false, 3, 4⟩

def sampleCB : CombineHarvester := ⟨[obsW], [procSig, procBkg], [], []⟩

/-- A builder whose shapes have been extracted. -/
def sampleBuilder : DatacardBuilder :=
  ⟨"shapes.root", [sampleShape], sampleCB, true⟩

/-- A builder whose shapes have not been extracted. -/
def sampleBuilderNX : DatacardBuilder :=
  ⟨"shapes.root", [sampleShape], sampleCB, false⟩


/-- The tails of the placeholders "$SYSTEMATIC", "$BIN", "$PROCESS" and
"$MASS" after their common leading '$'. -/
def sysPs : List Char := ['S', 'Y', 'S', 'T', 'E', 'M', 'A', 'T', 'I', 'C']

def binPs : List Char := ['B', 'I', 'N']

def procPs : List Char := ['P', 'R', 'O', 'C', 'E', 'S', 'S']

def massPs : List Char := ['M', 'A', 'S', 'S']


/-! ## Theorems -/

/-! ### Basic lemmas about parsing -/

theorem nth_append_left {α : Type} :
    ∀ (l l' : List α) (i : Nat), i < l.length → nth (l ++ l') i = nth l i := by
  intro l
  induction l with
  | nil => intro l' i h; simp at h
  | cons a t ih =>
    intro l' i h
    cases i with
    | zero => rfl
    | succ j =>
      simp only [List.cons_append, nth]
      exact ih l' j (by simpa using Nat.lt_of_succ_lt_succ h)

theorem nth_none_of_le {α : Type} :
    ∀ (l : List α) (i : Nat), l.length ≤ i → nth l i = none := by
  intro l
  induction l with
  | nil => intro i _; rfl
  | cons a t ih =>
    intro i h
    cases i with
    | zero => simp at h
    | succ j => exact ih j (by simpa using Nat.le_of_succ_le_succ h)

theorem legendIdx_channel : legendIdx "channel" = some 0 := by decide
theorem legendIdx_category : legendIdx "category" = some 1 := by decide
theorem legendIdx_process : legendIdx "process" = some 2 := by decide
theorem legendIdx_analysis : legendIdx "analysis" = some 3 := by decide
theorem legendIdx_era : legendIdx "era" = some 4 := by decide
theorem legendIdx_variable : legendIdx "variable" = some 5 := by decide
theorem legendIdx_mass : legendIdx "mass" = some 6 := by decide
theorem legendIdx_variation : legendIdx "variation" = some 7 := by decide

/-- What `Shape.build` stores in `_properties`, split by whether the name
ends in '#'. -/
theorem build_props (name : List Char) (s : Shape)
    (h : Shape.build name = some s) :
    s.name = name ∧
    ((lastChar name = some '#' →
        s.properties =
          (splitHash name).filter (fun q => q ≠ []) ++ ["Nominal".toList]) ∧
     (lastChar name ≠ some '#' →
        s.properties = (splitHash name).filter (fun q => q ≠ []))) := by
  unfold Shape.build at h
  cases hlc : lastChar name with
  | none => rw [hlc] at h; simp at h
  | some c =>
    rw [hlc] at h
    simp only [Option.some_inj] at h
    subst h
    refine ⟨rfl, ?_, ?_⟩
    · intro hsharp
      injection hsharp with hc
      simp [hc]
    · intro hnot
      have hc : c ≠ '#' := fun hh => hnot (by rw [hh])
      simp [hc]

theorem build_nil : Shape.build [] = none := rfl

theorem nth_append_length {α : Type} :
    ∀ (l : List α) (a : α), nth (l ++ [a]) l.length = some a := by
  intro l a
  induction l with
  | nil => rfl
  | cons x t ih => simpa [nth] using ih

/-- C1: constructing a `Shape` splits the key name on the '#' delimiter,
discards empty segments, and exposes the resulting segments in the fixed
order channel, category, process, analysis, era, variable, mass, variation
through the correspondingly named properties; `get_property` applied to any
of the eight field names agrees with the equally named property. -/
theorem c1_shape_parsing (name : List Char) (s : Shape)
    (h : Shape.build name = some s) :
    (∀ i, i < ((splitHash name).filter (fun q => q ≠ [])).length →
        nth s.properties i = nth ((splitHash name).filter (fun q => q ≠ [])) i)
    ∧ (s.channel = nth s.properties 0 ∧ s.category = nth s.properties 1 ∧
       s.process = nth s.properties 2 ∧ s.analysis = nth s.properties 3 ∧
       s.era = nth s.properties 4 ∧ s.variable_ = nth s.properties 5 ∧
       s.mass = nth s.properties 6 ∧ s.variation = nth s.properties 7)
    ∧ (s.get_property "channel" = s.channel ∧
       s.get_property "category" = s.category ∧
       s.get_property "process" = s.process ∧
       s.get_property "analysis" = s.analysis ∧
       s.get_property "era" = s.era ∧
       s.get_property "variable" = s.variable_ ∧
       s.get_property "mass" = s.mass ∧
       s.get_property "variation" = s.variation) := by
  obtain ⟨-, hsharp, hplain⟩ := build_props name s h
  refine ⟨?_, ⟨?_, ?_, ?_, ?_, ?_, ?_, ?_, ?_⟩,
    rfl, rfl, rfl, rfl, rfl, rfl, rfl, rfl⟩
  · intro i hi
    by_cases hl : lastChar name = some '#'
    · rw [hsharp hl]; exact nth_append_left _ _ i hi
    · rw [hplain hl]
  · simp [Shape.channel, Shape.get_property, legendIdx_channel]
  · simp [Shape.category, Shape.get_property, legendIdx_category]
  · simp [Shape.process, Shape.get_property, legendIdx_process]
  · simp [Shape.analysis, Shape.get_property, legendIdx_analysis]
  · simp [Shape.era, Shape.get_property, legendIdx_era]
  · simp [Shape.variable_, Shape.get_property, legendIdx_variable]
  · simp [Shape.mass, Shape.get_property, legendIdx_mass]
  · simp [Shape.variation, Shape.get_property, legendIdx_variation]

/-- Witness for C1 at a concrete eight-segment key name. -/
theorem c1_shape_parsing_w :
    Shape.build sampleName = some sampleShape ∧
    sampleShape.channel = nth sampleShape.properties 0 ∧
    nth sampleShape.properties 0 = some "mt".toList ∧
    sampleShape.get_property "variation" = sampleShape.variation ∧
    sampleShape.variation = some "jesUp".toList :=
  ⟨by decide,
   (c1_shape_parsing sampleName sampleShape (by decide)).2.1.1,
   by decide,
   (c1_shape_parsing sampleName sampleShape (by decide)).2.2.2.2.2.2.2.2.2,
   by decide⟩

/-- C10: `Shape` construction and field access are partial: the empty name
fails to construct (the trailing-'#' test indexes the last character); with
fewer non-empty segments than a field's position and no trailing '#', the
field access returns nothing rather than a value; a name ending in '#'
instead receives "Nominal" as its variation. -/
theorem c10_partiality :
    Shape.build [] = none
    ∧ (∀ name s f i, Shape.build name = some s →
        lastChar name ≠ some '#' → legendIdx f = some i →
        ((splitHash name).filter (fun q => q ≠ [])).length ≤ i →
        s.get_property f = none)
    ∧ (∀ name s, Shape.build name = some s → lastChar name = some '#' →
        ((splitHash name).filter (fun q => q ≠ [])).length = 7 →
        s.variation = some "Nominal".toList) := by
  refine ⟨build_nil, ?_, ?_⟩
  · intro name s f i h hns hf hlen
    obtain ⟨-, -, hplain⟩ := build_props name s h
    simp only [Shape.get_property, hf, Option.some_bind]
    rw [hplain hns]
    exact nth_none_of_le _ _ hlen
  · intro name s h hsharp hlen
    obtain ⟨-, hsh, -⟩ := build_props name s h
    have hp := hsh hsharp
    simp only [Shape.variation, Shape.get_property, legendIdx_variation]
    rw [hp, ← hlen]
    exact nth_append_length _ _

/-- Witness for C10: the empty name, a seven-segment name without a
trailing '#' (variation access fails), and the same name with a trailing
'#' (variation reads "Nominal"). -/
theorem c10_partiality_w :
    Shape.build [] = none ∧
    sevenShape.get_property "variation" = none ∧
    nominalizedShape.variation = some "Nominal".toList :=
  ⟨c10_partiality.1,
   c10_partiality.2.1 sevenName sevenShape "variation" 7 (by decide)
     (by decide) (by decide) (by decide),
   c10_partiality.2.2 nominalizedName nominalizedShape (by decide)
     (by decide) (by decide)⟩

/-! ### Construction of the shape list (C3, C8) -/

theorem lastChar_cons_isSome (c : Char) (cs : List Char) :
    ∃ d, lastChar (c :: cs) = some d := by
  cases h : lastChar cs with
  | none => exact ⟨c, by simp [lastChar, h]⟩
  | some d => exact ⟨d, by simp [lastChar, h]⟩

theorem build_eq_none_iff (k : List Char) : Shape.build k = none ↔ k = [] := by
  cases k with
  | nil => simp [build_nil]
  | cons c cs =>
    obtain ⟨d, hd⟩ := lastChar_cons_isSome c cs
    simp [Shape.build, hd]

theorem build_shapes_ok_iff :
    ∀ keys, isOkE (build_shapes keys) = true ↔ ∀ k ∈ keys, k ≠ [] := by
  intro keys
  induction keys with
  | nil => simp [build_shapes, isOkE]
  | cons k ks ih =>
    simp only [build_shapes]
    cases hb : Shape.build k with
    | none =>
      have hk : k = [] := (build_eq_none_iff k).mp hb
      simp [isOkE, hk]
    | some s =>
      have hk : k ≠ [] := by
        intro hkk
        rw [(build_eq_none_iff k).mpr hkk] at hb
        exact Option.noConfusion hb
      cases hbs : build_shapes ks with
      | error e =>
        rw [hbs] at ih
        simp only [isOkE] at ih ⊢
        simp [hk, ← ih]
      | ok ss =>
        rw [hbs] at ih
        simp only [isOkE] at ih ⊢
        simp [hk, ← ih]

theorem build_shapes_length :
    ∀ keys l, build_shapes keys = Except.ok l → l.length = keys.length := by
  intro keys
  induction keys with
  | nil => intro l h; simp [build_shapes] at h; simp [← h]
  | cons k ks ih =>
    intro l h
    simp only [build_shapes] at h
    cases hb : Shape.build k with
    | none => rw [hb] at h; exact Except.noConfusion h
    | some s =>
      rw [hb] at h
      cases hbs : build_shapes ks with
      | error e => rw [hbs] at h; exact Except.noConfusion h
      | ok ss =>
        rw [hbs] at h
        injection h with h
        subst h
        simp [ih ss hbs]

theorem build_shapes_nth :
    ∀ keys l, build_shapes keys = Except.ok l →
      ∀ i k, nth keys i = some k →
        ∃ s, Shape.build k = some s ∧ nth l i = some s := by
  intro keys
  induction keys with
  | nil => intro l _ i k hk; simp [nth] at hk
  | cons k0 ks ih =>
    intro l h i k hk
    simp only [build_shapes] at h
    cases hb : Shape.build k0 with
    | none => rw [hb] at h; exact Except.noConfusion h
    | some s =>
      rw [hb] at h
      cases hbs : build_shapes ks with
      | error e => rw [hbs] at h; exact Except.noConfusion h
      | ok ss =>
        rw [hbs] at h
        injection h with h
        subst h
        cases i with
        | zero =>
          simp only [nth] at hk
          injection hk with hk
          subst hk
          exact ⟨s, hb, rfl⟩
        | succ j => exact ih ss hbs j k hk

/-- C3 counterexample: an input file whose single key carries the "jesUp"
shape variation with no "jesDown" partner anywhere is accepted without any
error — construction performs no up/down pairing check. -/
theorem c3_pairing_check_cex :
    get_shapes [sampleName] = Except.ok [sampleShape] ∧
    sampleShape.variation = some "jesUp".toList :=
  ⟨rfl, by decide⟩

/-- C3 (amended): the program performs no paired up/down validation; the
shape-list construction succeeds exactly when the file has at least one key
and every key is a non-empty name, independent of any variation pairing. -/
theorem c3_no_pairing_validation (keys : List (List Char)) :
    isOkE (get_shapes keys) = true ↔ (keys ≠ [] ∧ ∀ k ∈ keys, k ≠ []) := by
  simp only [get_shapes]
  cases hb : build_shapes keys with
  | error e =>
    have h := build_shapes_ok_iff keys
    rw [hb] at h
    constructor
    · intro hf
      exact absurd hf (by simp [isOkE])
    · intro hall
      exact h.mpr hall.2
  | ok l =>
    have h := build_shapes_ok_iff keys
    rw [hb] at h
    have hall : ∀ k ∈ keys, k ≠ [] := h.mp rfl
    have hlen := build_shapes_length keys l hb
    by_cases hl : l.length = 0
    · have hk : keys = [] := by
        refine List.eq_nil_of_length_eq_zero ?_
        rw [← hlen]
        exact hl
      dsimp only
      simp [hl, isOkE, hk]
    · have hk : keys ≠ [] := by
        intro hkk
        rw [hkk] at hlen
        simp at hlen
        exact hl (by rw [hlen]; rfl)
      dsimp only
      rw [if_neg hl]
      constructor
      · intro _
        exact ⟨hk, hall⟩
      · intro _
        rfl

/-- Witness for the amended C3: the unpaired single-key input is accepted. -/
theorem c3_no_pairing_validation_w :
    isOkE (get_shapes [sampleName]) = true :=
  (c3_no_pairing_validation [sampleName]).mpr ⟨by decide, by decide⟩

theorem get_shapes_ok_inv (keys : List (List Char)) (shapes : List Shape)
    (h : get_shapes keys = Except.ok shapes) :
    build_shapes keys = Except.ok shapes ∧ shapes ≠ [] := by
  simp only [get_shapes] at h
  cases hb : build_shapes keys with
  | error e => rw [hb] at h; exact Except.noConfusion h
  | ok l =>
    rw [hb] at h
    dsimp only at h
    by_cases hl : l.length = 0
    · rw [if_pos hl] at h
      exact Except.noConfusion h
    · rw [if_neg hl] at h
      injection h with h
      subst h
      exact ⟨rfl, fun hn => hl (by rw [hn]; rfl)⟩

/-- C8: builder construction fails on a missing file and on a file with
zero keys; on success the input filename is kept, there is one shape per
key (in order), the shape list is non-empty, and the shapes-extracted flag
starts `false`. -/
theorem c8_builder_init (fs : String → Option (List (List Char)))
    (fn : String) :
    (fs fn = none → isOkE (DatacardBuilder.init fs fn) = false)
    ∧ (fs fn = some [] → isOkE (DatacardBuilder.init fs fn) = false)
    ∧ (∀ b, DatacardBuilder.init fs fn = Except.ok b →
        b.input_filename = fn ∧ b.shapes_extracted = false ∧ b.shapes ≠ [] ∧
        ∃ keys, fs fn = some keys ∧ b.shapes.length = keys.length ∧
          ∀ i k, nth keys i = some k →
            ∃ s, Shape.build k = some s ∧ nth b.shapes i = some s) := by
  refine ⟨?_, ?_, ?_⟩
  · intro h
    simp [DatacardBuilder.init, h, isOkE]
  · intro h
    simp [DatacardBuilder.init, h, get_shapes, build_shapes, isOkE]
  · intro b hb
    simp only [DatacardBuilder.init] at hb
    cases hfs : fs fn with
    | none => rw [hfs] at hb; exact Except.noConfusion hb
    | some keys =>
      rw [hfs] at hb
      dsimp only at hb
      cases hgs : get_shapes keys with
      | error e => rw [hgs] at hb; exact Except.noConfusion hb
      | ok shapes =>
        rw [hgs] at hb
        dsimp only at hb
        injection hb with hb
        subst hb
        obtain ⟨hbs, hne⟩ := get_shapes_ok_inv keys shapes hgs
        exact ⟨rfl, rfl, hne, keys, rfl, build_shapes_length keys shapes hbs,
          build_shapes_nth keys shapes hbs⟩

/-- Witness for C8: a one-key file system sample; also the failure on a
missing filename. -/
theorem c8_builder_init_w :
    isOkE (DatacardBuilder.init sampleFS "missing.root") = false ∧
    DatacardBuilder.init sampleFS "shapes.root" = Except.ok sampleInitBuilder ∧
    sampleInitBuilder.input_filename = "shapes.root" ∧
    sampleInitBuilder.shapes_extracted = false ∧
    sampleInitBuilder.shapes ≠ [] :=
  ⟨(c8_builder_init sampleFS "missing.root").1 rfl,
   rfl,
   ((c8_builder_init sampleFS "shapes.root").2.2 sampleInitBuilder rfl).1,
   ((c8_builder_init sampleFS "shapes.root").2.2 sampleInitBuilder rfl).2.1,
   ((c8_builder_init sampleFS "shapes.root").2.2 sampleInitBuilder
     rfl).2.2.1⟩

/-- C9: `_convert_to_list` keeps lists unchanged, wraps scalars into
one-element lists, always yields a list, is idempotent, and consequently
`add_observation` behaves identically on a scalar argument and on the
corresponding one-element list, in every argument position. -/
theorem c9_convert_to_list :
    (∀ l, convert_to_list (PyVal.list l) = PyVal.list l)
    ∧ (∀ v, convert_to_list (PyVal.scalar v) = PyVal.list [v])
    ∧ (∀ x, (convert_to_list x).isList = true)
    ∧ (∀ x, convert_to_list (convert_to_list x) = convert_to_list x)
    ∧ (∀ b mass analysis era channel category v,
        DatacardBuilder.add_observation b (PyVal.scalar v) analysis era
            channel category =
          DatacardBuilder.add_observation b (PyVal.list [v]) analysis era
            channel category ∧
        DatacardBuilder.add_observation b mass (PyVal.scalar v) era channel
            category =
          DatacardBuilder.add_observation b mass (PyVal.list [v]) era channel
            category ∧
        DatacardBuilder.add_observation b mass analysis (PyVal.scalar v)
            channel category =
          DatacardBuilder.add_observation b mass analysis (PyVal.list [v])
            channel category ∧
        DatacardBuilder.add_observation b mass analysis era (PyVal.scalar v)
            category =
          DatacardBuilder.add_observation b mass analysis era (PyVal.list [v])
            category ∧
        DatacardBuilder.add_observation b mass analysis era channel
            (PyVal.scalar v) =
          DatacardBuilder.add_observation b mass analysis era channel
            (PyVal.list [v])) := by
  refine ⟨fun l => rfl, fun v => rfl, fun x => ?_, fun x => ?_,
    fun b mass analysis era channel category v =>
      ⟨rfl, rfl, rfl, rfl, rfl⟩⟩
  · cases x <;> rfl
  · cases x <;> rfl

/-- C6: `add_signals` is exactly `add_processes` with flag `True`, and
`add_backgrounds` is exactly `add_processes` with flag `False`. -/
theorem c6_signals_backgrounds (b : DatacardBuilder)
    (mass analysis era channel process category : PyVal) :
    b.add_signals mass analysis era channel process category =
      b.add_processes mass analysis era channel process category true
    ∧ b.add_backgrounds mass analysis era channel process category =
      b.add_processes mass analysis era channel process category false :=
  ⟨rfl, rfl⟩

/-! ### Systematics registration (C7) -/

/-- C7: `add_shape_systematic` registers a systematic of type "shape" and
`add_normalization_systematic` registers one of type "lnN"; both convert a
scalar channel or process argument to a one-element list, and both apply
the named systematic with the given strength exactly to the processes in
the selected channels and processes. -/
theorem c7_systematics (b : DatacardBuilder) (sname : String)
    (strength : Rat) (channel process : PyVal) :
    ((b.add_shape_systematic sname strength channel process).cb.systs =
      b.cb.systs ++ (selectedProcs b.cb (asList (convert_to_list channel))
          (asList (convert_to_list process))).map
        (fun p => ⟨sname, "shape", strength, p.channel, p.process⟩))
    ∧ ((b.add_normalization_systematic sname strength channel process).cb.systs =
      b.cb.systs ++ (selectedProcs b.cb (asList (convert_to_list channel))
          (asList (convert_to_list process))).map
        (fun p => ⟨sname, "lnN", strength, p.channel, p.process⟩))
    ∧ (∀ v, b.add_shape_systematic sname strength (PyVal.scalar v) process =
        b.add_shape_systematic sname strength (PyVal.list [v]) process)
    ∧ (∀ v, b.add_shape_systematic sname strength channel (PyVal.scalar v) =
        b.add_shape_systematic sname strength channel (PyVal.list [v]))
    ∧ (∀ v, b.add_normalization_systematic sname strength (PyVal.scalar v)
          process =
        b.add_normalization_systematic sname strength (PyVal.list [v]) process)
    ∧ (∀ v, b.add_normalization_systematic sname strength channel
          (PyVal.scalar v) =
        b.add_normalization_systematic sname strength channel
          (PyVal.list [v])) := by
  refine ⟨?_, ?_, fun v => rfl, fun v => rfl, fun v => rfl, fun v => rfl⟩
  · simp [DatacardBuilder.add_shape_systematic, CombineHarvester.AddSystTo,
      CombineHarvester.cp, CHView.channelF, CHView.processF, selectedProcs,
      List.filter_filter]
  · simp [DatacardBuilder.add_normalization_systematic,
      CombineHarvester.AddSystTo, CombineHarvester.cp, CHView.channelF,
      CHView.processF, selectedProcs, List.filter_filter]

/-! ### Call sequencing (C2) -/

/-- C2: `add_bin_by_bin_systematics` and
`replace_observation_by_asimov_dataset` fail exactly when invoked while the
shapes-extracted flag is still `False`, leave the builder unchanged when
they fail that check, and proceed past the check after any call to
`extract_shapes`. -/
theorem c2_sequencing_guard (b : DatacardBuilder) (processes category : PyVal)
    (add_threshold merge_threshold : Rat) (fix_norm : Bool) :
    (isOkE (b.add_bin_by_bin_systematics processes add_threshold
        merge_threshold fix_norm).2 = false ↔ b.shapes_extracted = false)
    ∧ (isOkE (b.replace_observation_by_asimov_dataset category).2 = false ↔
        b.shapes_extracted = false)
    ∧ (b.shapes_extracted = false →
        (b.add_bin_by_bin_systematics processes add_threshold merge_threshold
          fix_norm).1 = b)
    ∧ (b.shapes_extracted = false →
        (b.replace_observation_by_asimov_dataset category).1 = b)
    ∧ (∀ ch ana era va bin,
        (b.extract_shapes ch ana era va bin).shapes_extracted = true)
    ∧ (∀ ch ana era va bin,
        isOkE ((b.extract_shapes ch ana era va bin).add_bin_by_bin_systematics
          processes add_threshold merge_threshold fix_norm).2 = true)
    ∧ (∀ ch ana era va bin,
        isOkE ((b.extract_shapes ch ana era va
          bin).replace_observation_by_asimov_dataset category).2 = true) := by
  cases hb : b.shapes_extracted with
  | false =>
    refine ⟨?_, ?_, ?_, ?_, fun ch ana era va bin => rfl, ?_, ?_⟩ <;>
      simp [DatacardBuilder.add_bin_by_bin_systematics,
        DatacardBuilder.replace_observation_by_asimov_dataset,
        DatacardBuilder.extract_shapes, hb, isOkE]
  | true =>
    refine ⟨?_, ?_, ?_, ?_, fun ch ana era va bin => rfl, ?_, ?_⟩ <;>
      simp [DatacardBuilder.add_bin_by_bin_systematics,
        DatacardBuilder.replace_observation_by_asimov_dataset,
        DatacardBuilder.extract_shapes, hb, isOkE]

/-- Witness for C2: a not-yet-extracted builder fails both guarded calls
and is left unchanged; after `extract_shapes` the calls pass the check. -/
theorem c2_sequencing_guard_w :
    isOkE (sampleBuilderNX.add_bin_by_bin_systematics (PyVal.list []) 1 1
      true).2 = false ∧
    (sampleBuilderNX.replace_observation_by_asimov_dataset
      (PyVal.scalar (.str "cat"))).1 = sampleBuilderNX ∧
    isOkE ((sampleBuilderNX.extract_shapes "mt".toList "ana".toList
      "2017".toList "mva".toList none).add_bin_by_bin_systematics
      (PyVal.list []) 1 1 true).2 = true :=
  ⟨(c2_sequencing_guard sampleBuilderNX (PyVal.list [])
      (PyVal.scalar (.str "cat")) 1 1 true).1.mpr rfl,
   (c2_sequencing_guard sampleBuilderNX (PyVal.list [])
      (PyVal.scalar (.str "cat")) 1 1 true).2.2.2.1 rfl,
   (c2_sequencing_guard sampleBuilderNX (PyVal.list [])
      (PyVal.scalar (.str "cat")) 1 1 true).2.2.2.2.2.1 "mt".toList
      "ana".toList "2017".toList "mva".toList none⟩

/-! ### Asimov dataset replacement (C4) -/

theorem chain_bg (cb : CombineHarvester) (o : Observation) :
    ((((cb.cp.analysisF [o.analysis]).eraF [o.era]).channelF
        [o.channel]).binF [o.bin]).backgroundsF.procs =
      matchingProcs cb o false := by
  simp only [CombineHarvester.cp, CHView.analysisF, CHView.eraF,
    CHView.channelF, CHView.binF, CHView.backgroundsF, matchingProcs,
    List.filter_filter]
  apply List.filter_congr
  intro p _
  by_cases h1 : p.analysis = o.analysis <;>
    by_cases h2 : p.era = o.era <;>
      by_cases h3 : p.channel = o.channel <;>
        by_cases h4 : p.bin = o.bin <;>
          cases h5 : p.signal <;>
            simp [h1, h2, h3, h4, h5]

theorem chain_sig (cb : CombineHarvester) (o : Observation) :
    ((((cb.cp.analysisF [o.analysis]).eraF [o.era]).channelF
        [o.channel]).binF [o.bin]).signalsF.procs =
      matchingProcs cb o true := by
  simp only [CombineHarvester.cp, CHView.analysisF, CHView.eraF,
    CHView.channelF, CHView.binF, CHView.signalsF, matchingProcs,
    List.filter_filter]
  apply List.filter_congr
  intro p _
  by_cases h1 : p.analysis = o.analysis <;>
    by_cases h2 : p.era = o.era <;>
      by_cases h3 : p.channel = o.channel <;>
        by_cases h4 : p.bin = o.bin <;>
          cases h5 : p.signal <;>
            simp [h1, h2, h3, h4, h5]

theorem asimovReplace_eq (cb : CombineHarvester) (o : Observation) :
    asimovReplace cb o =
      { o with
        shape := sumShapes (matchingProcs cb o false) +
          sumShapes (matchingProcs cb o true),
        rate := sumRates (matchingProcs cb o false) +
          sumRates (matchingProcs cb o true) } := by
  unfold asimovReplace
  simp only [CHView.GetShape, CHView.GetRate, chain_bg, chain_sig,
    sumShapes, sumRates]

/-- C4: after extraction, `replace_observation_by_asimov_dataset` succeeds
and replaces the shape of every observation in the selected categories by
the sum of the background shape and the signal shape, and its rate by the
sum of the background and signal rates, where background and signal are the
processes matching the observation's analysis, era, channel and bin;
observations in other bins (and all other state) are unchanged. -/
theorem c4_asimov_replacement (b : DatacardBuilder) (category : PyVal)
    (h : b.shapes_extracted = true) :
    (b.replace_observation_by_asimov_dataset category).2 = Except.ok ()
    ∧ (b.replace_observation_by_asimov_dataset category).1.cb.observations =
        b.cb.observations.map (fun o =>
          if o.bin ∈ asList (convert_to_list category) then
            { o with
              shape := sumShapes (matchingProcs b.cb o false) +
                sumShapes (matchingProcs b.cb o true),
              rate := sumRates (matchingProcs b.cb o false) +
                sumRates (matchingProcs b.cb o true) }
          else o)
    ∧ (b.replace_observation_by_asimov_dataset category).1.cb.procs =
        b.cb.procs
    ∧ (b.replace_observation_by_asimov_dataset category).1.cb.systs =
        b.cb.systs
    ∧ (b.replace_observation_by_asimov_dataset category).1.input_filename =
        b.input_filename := by
  simp only [DatacardBuilder.replace_observation_by_asimov_dataset, h,
    asimovReplace_eq]
  refine ⟨by simp, by simp, by simp, by simp, by simp⟩

/-- Witness for C4 at a concrete builder: the single observation in bin
"cat" receives shape 3 + 5 and rate 4 + 7 from its background and signal
processes. -/
theorem c4_asimov_replacement_w :
    (sampleBuilder.replace_observation_by_asimov_dataset
      (PyVal.scalar (.str "cat"))).2 = Except.ok () ∧
    (sampleBuilder.replace_observation_by_asimov_dataset
      (PyVal.scalar (.str "cat"))).1.cb.observations =
      [⟨.int 125, .str "ana", .str "2017", .str "mt", .str "cat", 8, 11⟩] :=
  ⟨(c4_asimov_replacement sampleBuilder (PyVal.scalar (.str "cat")) rfl).1,
   ((c4_asimov_replacement sampleBuilder
      (PyVal.scalar (.str "cat")) rfl).2.1).trans (by decide)⟩

/-! ### String replacement machinery (C5) -/

theorem stripPre_len : ∀ pat l r, stripPre pat l = some r →
    l.length = pat.length + r.length := by
  intro pat
  induction pat with
  | nil => intro l r h; simp [stripPre] at h; simp [h]
  | cons p ps ih =>
    intro l r h
    cases l with
    | nil => simp [stripPre] at h
    | cons c cs =>
      simp only [stripPre] at h
      by_cases hp : p = c
      · simp [hp] at h
        have := ih cs r h
        simp [List.length_cons, this]
        omega
      · simp [hp] at h

theorem goF_irrel (p : Char) (ps rep : List Char) :
    ∀ f1 f2 s, s.length ≤ f1 → s.length ≤ f2 →
      goF p ps rep f1 s = goF p ps rep f2 s := by
  intro f1
  induction f1 with
  | zero =>
    intro f2 s h1 h2
    have : s = [] := List.eq_nil_of_length_eq_zero (Nat.le_zero.mp h1)
    subst this
    cases f2 <;> rfl
  | succ f1 ih =>
    intro f2 s h1 h2
    cases s with
    | nil => cases f2 <;> rfl
    | cons c cs =>
      cases f2 with
      | zero => simp at h2
      | succ f2 =>
        simp only [goF]
        cases hstrip : stripPre (p :: ps) (c :: cs) with
        | some rest =>
          have hl := stripPre_len _ _ _ hstrip
          simp [List.length_cons] at hl h1 h2
          have hr1 : rest.length ≤ f1 := by omega
          have hr2 : rest.length ≤ f2 := by omega
          dsimp only
          rw [ih f2 rest hr1 hr2]
        | none =>
          simp [List.length_cons] at h1 h2
          dsimp only
          rw [ih f2 cs (by omega) (by omega)]

theorem go_nil (p : Char) (ps rep : List Char) :
    replaceListGo p ps rep [] = [] := rfl

theorem go_cons_some (p : Char) (ps rep : List Char) (c : Char)
    (cs rest : List Char) (h : stripPre (p :: ps) (c :: cs) = some rest) :
    replaceListGo p ps rep (c :: cs) = rep ++ replaceListGo p ps rep rest := by
  have hl := stripPre_len _ _ _ h
  simp [List.length_cons] at hl
  unfold replaceListGo
  simp only [List.length_cons, goF, h]
  rw [goF_irrel p ps rep cs.length rest.length rest (by omega) (by omega)]

theorem go_cons_none (p : Char) (ps rep : List Char) (c : Char)
    (cs : List Char) (h : stripPre (p :: ps) (c :: cs) = none) :
    replaceListGo p ps rep (c :: cs) = c :: replaceListGo p ps rep cs := by
  unfold replaceListGo
  simp only [List.length_cons, goF, h]

theorem go_skip_one (p : Char) (ps rep : List Char) (c : Char)
    (cs : List Char) (hc : c ≠ p) :
    replaceListGo p ps rep (c :: cs) = c :: replaceListGo p ps rep cs := by
  apply go_cons_none
  have hp : p ≠ c := Ne.symm hc
  simp [stripPre, hp]

theorem go_skip_chunk (p : Char) (ps rep : List Char) (xs ys : List Char)
    (hx : p ∉ xs) :
    replaceListGo p ps rep (xs ++ ys) = xs ++ replaceListGo p ps rep ys := by
  induction xs with
  | nil => simp
  | cons c cs ih =>
    have hc : c ≠ p := by
      intro h; exact hx (h ▸ List.mem_cons_self c cs)
    have hx' : p ∉ cs := fun h => hx (List.mem_cons_of_mem _ h)
    simp only [List.cons_append]
    rw [go_skip_one p ps rep c (cs ++ ys) hc, ih hx']

theorem replaceList_sys (rep s : List Char) :
    replaceList "$SYSTEMATIC".toList rep s = replaceListGo '$' sysPs rep s :=
  rfl

theorem replaceList_bin (rep s : List Char) :
    replaceList "$BIN".toList rep s = replaceListGo '$' binPs rep s := rfl

theorem replaceList_proc (rep s : List Char) :
    replaceList "$PROCESS".toList rep s = replaceListGo '$' procPs rep s :=
  rfl

theorem replaceList_mass (rep s : List Char) :
    replaceList "$MASS".toList rep s = replaceListGo '$' massPs rep s := rfl

theorem go_sys_match (rep t : List Char) :
    replaceListGo '$' sysPs rep
        ('$' :: 'S' :: 'Y' :: 'S' :: 'T' :: 'E' :: 'M' :: 'A' :: 'T' :: 'I'
          :: 'C' :: t) =
      rep ++ replaceListGo '$' sysPs rep t :=
  go_cons_some '$' sysPs rep '$'
    ('S' :: 'Y' :: 'S' :: 'T' :: 'E' :: 'M' :: 'A' :: 'T' :: 'I' :: 'C' :: t)
    t (by rfl)

theorem go_bin_match (rep t : List Char) :
    replaceListGo '$' binPs rep ('$' :: 'B' :: 'I' :: 'N' :: t) =
      rep ++ replaceListGo '$' binPs rep t :=
  go_cons_some '$' binPs rep '$' ('B' :: 'I' :: 'N' :: t) t (by rfl)

theorem go_proc_match (rep t : List Char) :
    replaceListGo '$' procPs rep
        ('$' :: 'P' :: 'R' :: 'O' :: 'C' :: 'E' :: 'S' :: 'S' :: t) =
      rep ++ replaceListGo '$' procPs rep t :=
  go_cons_some '$' procPs rep '$'
    ('P' :: 'R' :: 'O' :: 'C' :: 'E' :: 'S' :: 'S' :: t) t (by rfl)

theorem go_mass_match (rep t : List Char) :
    replaceListGo '$' massPs rep ('$' :: 'M' :: 'A' :: 'S' :: 'S' :: t) =
      rep ++ replaceListGo '$' massPs rep t :=
  go_cons_some '$' massPs rep '$' ('M' :: 'A' :: 'S' :: 'S' :: t) t (by rfl)

theorem go_sys_atB (rep t : List Char) :
    replaceListGo '$' sysPs rep ('$' :: 'B' :: t) =
      '$' :: replaceListGo '$' sysPs rep ('B' :: t) :=
  go_cons_none '$' sysPs rep '$' ('B' :: t) (by rfl)

theorem go_sys_atP (rep t : List Char) :
    replaceListGo '$' sysPs rep ('$' :: 'P' :: t) =
      '$' :: replaceListGo '$' sysPs rep ('P' :: t) :=
  go_cons_none '$' sysPs rep '$' ('P' :: t) (by rfl)

theorem go_sys_atM (rep t : List Char) :
    replaceListGo '$' sysPs rep ('$' :: 'M' :: t) =
      '$' :: replaceListGo '$' sysPs rep ('M' :: t) :=
  go_cons_none '$' sysPs rep '$' ('M' :: t) (by rfl)

theorem go_bin_atP (rep t : List Char) :
    replaceListGo '$' binPs rep ('$' :: 'P' :: t) =
      '$' :: replaceListGo '$' binPs rep ('P' :: t) :=
  go_cons_none '$' binPs rep '$' ('P' :: t) (by rfl)

theorem go_bin_atM (rep t : List Char) :
    replaceListGo '$' binPs rep ('$' :: 'M' :: t) =
      '$' :: replaceListGo '$' binPs rep ('M' :: t) :=
  go_cons_none '$' binPs rep '$' ('M' :: t) (by rfl)

theorem go_proc_atM (rep t : List Char) :
    replaceListGo '$' procPs rep ('$' :: 'M' :: t) =
      '$' :: replaceListGo '$' procPs rep ('M' :: t) :=
  go_cons_none '$' procPs rep '$' ('M' :: t) (by rfl)

theorem tl_hash : "#".toList = ['#'] := rfl

theorem tl_mid :
    "#$BIN#$PROCESS#".toList =
      ['#', '$', 'B', 'I', 'N', '#', '$', 'P', 'R', 'O', 'C', 'E', 'S', 'S',
       '#'] := rfl

theorem tl_tail :
    "#$MASS#$SYSTEMATIC".toList =
      ['#', '$', 'M', 'A', 'S', 'S', '#', '$', 'S', 'Y', 'S', 'T', 'E', 'M',
       'A', 'T', 'I', 'C'] := rfl

theorem get_template_norm (ch ana era va : List Char) :
    get_template ch ana era va =
      '#' :: (ch ++ '#' :: '$' :: 'B' :: 'I' :: 'N' :: '#' :: '$' :: 'P' ::
        'R' :: 'O' :: 'C' :: 'E' :: 'S' :: 'S' :: '#' :: (ana ++ '#' ::
        (era ++ '#' :: (va ++ '#' :: '$' :: 'M' :: 'A' :: 'S' :: 'S' :: '#'
          :: '$' :: 'S' :: 'Y' :: 'S' :: 'T' :: 'E' :: 'M' :: 'A' :: 'T' ::
          'I' :: 'C' :: [])))) := by
  simp [get_template, tl_hash, tl_mid, tl_tail, List.append_assoc]

theorem nominal_pattern_norm (ch ana era va : List Char) (hch : '$' ∉ ch)
    (hana : '$' ∉ ana) (hera : '$' ∉ era) (hva : '$' ∉ va) :
    nominal_pattern ch ana era va =
      '#' :: (ch ++ '#' :: '$' :: 'B' :: 'I' :: 'N' :: '#' :: '$' :: 'P' ::
        'R' :: 'O' :: 'C' :: 'E' :: 'S' :: 'S' :: '#' :: (ana ++ '#' ::
        (era ++ '#' :: (va ++ '#' :: '$' :: 'M' :: 'A' :: 'S' :: 'S' :: '#'
          :: [])))) := by
  rw [nominal_pattern, replaceList_sys, get_template_norm]
  simp [go_skip_one, go_skip_chunk, go_sys_atB, go_sys_atP, go_sys_atM,
    go_sys_match, go_nil, hch, hana, hera, hva]

theorem nominal_name_norm (ch ana era va bin proc mass : List Char)
    (hch : '$' ∉ ch) (hana : '$' ∉ ana) (hera : '$' ∉ era) (hva : '$' ∉ va)
    (hbin : '$' ∉ bin) (hproc : '$' ∉ proc) :
    nominal_name ch ana era va bin proc mass =
      '#' :: (ch ++ '#' :: (bin ++ '#' :: (proc ++ '#' :: (ana ++ '#' ::
        (era ++ '#' :: (va ++ '#' :: (mass ++ ['#']))))))) := by
  rw [nominal_name, instantiate_pattern, replaceList_bin, replaceList_proc,
    replaceList_mass, nominal_pattern_norm ch ana era va hch hana hera hva]
  have h1 : replaceListGo '$' binPs bin
      ('#' :: (ch ++ '#' :: '$' :: 'B' :: 'I' :: 'N' :: '#' :: '$' :: 'P' ::
        'R' :: 'O' :: 'C' :: 'E' :: 'S' :: 'S' :: '#' :: (ana ++ '#' ::
        (era ++ '#' :: (va ++ '#' :: '$' :: 'M' :: 'A' :: 'S' :: 'S' :: '#'
          :: []))))) =
      '#' :: (ch ++ '#' :: (bin ++ '#' :: '$' :: 'P' :: 'R' :: 'O' :: 'C' ::
        'E' :: 'S' :: 'S' :: '#' :: (ana ++ '#' :: (era ++ '#' :: (va ++
        '#' :: '$' :: 'M' :: 'A' :: 'S' :: 'S' :: '#' :: []))))) := by
    simp [go_skip_one, go_skip_chunk, go_bin_match, go_bin_atP, go_bin_atM,
      go_nil, hch, hana, hera, hva]
  rw [h1]
  have h2 : replaceListGo '$' procPs proc
      ('#' :: (ch ++ '#' :: (bin ++ '#' :: '$' :: 'P' :: 'R' :: 'O' :: 'C' ::
        'E' :: 'S' :: 'S' :: '#' :: (ana ++ '#' :: (era ++ '#' :: (va ++
        '#' :: '$' :: 'M' :: 'A' :: 'S' :: 'S' :: '#' :: [])))))) =
      '#' :: (ch ++ '#' :: (bin ++ '#' :: (proc ++ '#' :: (ana ++ '#' ::
        (era ++ '#' :: (va ++ '#' :: '$' :: 'M' :: 'A' :: 'S' :: 'S' :: '#'
          :: [])))))) := by
    simp [go_skip_one, go_skip_chunk, go_proc_match, go_proc_atM, go_nil,
      hch, hbin, hana, hera, hva]
  rw [h2]
  simp [go_skip_one, go_skip_chunk, go_mass_match, go_nil, hch, hbin, hproc,
    hana, hera, hva, List.append_assoc]

/-! ### Parsing the generated name back (C5) -/

theorem splitHash_cons_hash (cs : List Char) :
    splitHash ('#' :: cs) = [] :: splitHash cs := by
  simp [splitHash]

theorem splitHash_chunk (xs ys : List Char) (h : '#' ∉ xs) :
    splitHash (xs ++ '#' :: ys) = xs :: splitHash ys := by
  induction xs with
  | nil => simp [splitHash_cons_hash]
  | cons c cs ih =>
    have hc : c ≠ '#' := by
      intro hcc; exact h (hcc ▸ List.mem_cons_self c cs)
    have h' : '#' ∉ cs := fun hm => h (List.mem_cons_of_mem _ hm)
    have hi := ih h'
    simp only [List.cons_append, splitHash, if_neg hc, List.append_eq, hi]

theorem lastChar_cons_of (c : Char) (l : List Char) (d : Char)
    (h : lastChar l = some d) : lastChar (c :: l) = some d := by
  simp [lastChar, h]

theorem lastChar_app (l m : List Char) (d : Char) (h : lastChar m = some d) :
    lastChar (l ++ m) = some d := by
  induction l with
  | nil => simpa using h
  | cons c cs ih => exact lastChar_cons_of c (cs ++ m) d ih

/-- C5 counterexample: under exactly the hypotheses of the claim — channel,
analysis, era and variable containing no '#', non-empty $BIN, $PROCESS and
$MASS values, an empty $SYSTEMATIC — the round trip fails: an empty channel
(no '#' in it) shifts every parsed field, a '$' inside the channel is
consumed by the placeholder substitution, and a '#' inside the mass value
shifts the variation away from "Nominal". -/
theorem c5_roundtrip_cex :
    ((Shape.build (nominal_name [] "ana".toList "2017".toList "mva".toList
        "cat".toList "ggH".toList "125".toList)).bind Shape.channel ≠
      some []) ∧
    ((Shape.build (nominal_name "c$BIN".toList "ana".toList "2017".toList
        "mva".toList "cat".toList "ggH".toList "125".toList)).bind
        Shape.channel ≠ some "c$BIN".toList) ∧
    ((Shape.build (nominal_name "mt".toList "ana".toList "2017".toList
        "mva".toList "cat".toList "ggH".toList "12#5".toList)).bind
        Shape.variation ≠ some "Nominal".toList) :=
  ⟨by decide, by decide, by decide⟩

/-- C5 (amended): the round trip holds for non-empty channel, analysis, era
and variable values containing neither '#' nor '$', instantiated with
non-empty $BIN, $PROCESS and $MASS values that also contain no '#' (and,
for $BIN and $PROCESS, no '$'), and an empty $SYSTEMATIC: the resulting
name parses back with channel, analysis, era and variable equal to the
original inputs and variation equal to "Nominal". -/
theorem c5_roundtrip (ch ana era va bin proc mass : List Char)
    (hch1 : ch ≠ []) (hch2 : '#' ∉ ch) (hch3 : '$' ∉ ch)
    (hana1 : ana ≠ []) (hana2 : '#' ∉ ana) (hana3 : '$' ∉ ana)
    (hera1 : era ≠ []) (hera2 : '#' ∉ era) (hera3 : '$' ∉ era)
    (hva1 : va ≠ []) (hva2 : '#' ∉ va) (hva3 : '$' ∉ va)
    (hbin1 : bin ≠ []) (hbin2 : '#' ∉ bin) (hbin3 : '$' ∉ bin)
    (hproc1 : proc ≠ []) (hproc2 : '#' ∉ proc) (hproc3 : '$' ∉ proc)
    (hmass1 : mass ≠ []) (hmass2 : '#' ∉ mass) :
    ((Shape.build (nominal_name ch ana era va bin proc mass)).bind
        Shape.channel = some ch)
    ∧ ((Shape.build (nominal_name ch ana era va bin proc mass)).bind
        Shape.analysis = some ana)
    ∧ ((Shape.build (nominal_name ch ana era va bin proc mass)).bind
        Shape.era = some era)
    ∧ ((Shape.build (nominal_name ch ana era va bin proc mass)).bind
        Shape.variable_ = some va)
    ∧ ((Shape.build (nominal_name ch ana era va bin proc mass)).bind
        Shape.variation = some "Nominal".toList) := by
  rw [nominal_name_norm ch ana era va bin proc mass hch3 hana3 hera3 hva3
    hbin3 hproc3]
  have hsplit : splitHash ('#' :: (ch ++ '#' :: (bin ++ '#' :: (proc ++ '#' :: (ana ++ '#' :: (era ++ '#' :: (va ++ '#' :: (mass ++ ['#'])))))))) =
      [[], ch, bin, proc, ana, era, va, mass, []] := by
    rw [splitHash_cons_hash, splitHash_chunk _ _ hch2,
      splitHash_chunk _ _ hbin2, splitHash_chunk _ _ hproc2,
      splitHash_chunk _ _ hana2, splitHash_chunk _ _ hera2,
      splitHash_chunk _ _ hva2, splitHash_chunk _ _ hmass2]
    rfl
  have hlast : lastChar ('#' :: (ch ++ '#' :: (bin ++ '#' :: (proc ++ '#' :: (ana ++ '#' :: (era ++ '#' :: (va ++ '#' :: (mass ++ ['#'])))))))) = some '#' := by
    apply lastChar_cons_of
    apply lastChar_app
    apply lastChar_cons_of
    apply lastChar_app
    apply lastChar_cons_of
    apply lastChar_app
    apply lastChar_cons_of
    apply lastChar_app
    apply lastChar_cons_of
    apply lastChar_app
    apply lastChar_cons_of
    apply lastChar_app
    apply lastChar_cons_of
    apply lastChar_app
    rfl
  have hbuild : Shape.build ('#' :: (ch ++ '#' :: (bin ++ '#' :: (proc ++ '#' :: (ana ++ '#' :: (era ++ '#' :: (va ++ '#' :: (mass ++ ['#'])))))))) =
      some ⟨'#' :: (ch ++ '#' :: (bin ++ '#' :: (proc ++ '#' :: (ana ++ '#' :: (era ++ '#' :: (va ++ '#' :: (mass ++ ['#']))))))),
        [ch, bin, proc, ana, era, va, mass, "Nominal".toList]⟩ := by
    simp only [Shape.build, hsplit, hlast]
    simp [List.filter, hch1, hbin1, hproc1, hana1, hera1, hva1, hmass1]
  rw [hbuild]
  refine ⟨?_, ?_, ?_, ?_, ?_⟩ <;>
    simp [Shape.channel, Shape.analysis, Shape.era, Shape.variable_,
      Shape.variation, Shape.get_property, legendIdx_channel,
      legendIdx_analysis, legendIdx_era, legendIdx_variable,
      legendIdx_variation, nth]

/-- Witness for the amended C5 at concrete values, also showing the
concretely generated nominal histogram name. -/
theorem c5_roundtrip_w :
    ((Shape.build (nominal_name "mt".toList "ana".toList "2017".toList
        "mva".toList "cat".toList "ggH".toList "125".toList)).bind
        Shape.channel = some "mt".toList) ∧
    ((Shape.build (nominal_name "mt".toList "ana".toList "2017".toList
        "mva".toList "cat".toList "ggH".toList "125".toList)).bind
        Shape.analysis = some "ana".toList) ∧
    ((Shape.build (nominal_name "mt".toList "ana".toList "2017".toList
        "mva".toList "cat".toList "ggH".toList "125".toList)).bind
        Shape.era = some "2017".toList) ∧
    ((Shape.build (nominal_name "mt".toList "ana".toList "2017".toList
        "mva".toList "cat".toList "ggH".toList "125".toList)).bind
        Shape.variable_ = some "mva".toList) ∧
    ((Shape.build (nominal_name "mt".toList "ana".toList "2017".toList
        "mva".toList "cat".toList "ggH".toList "125".toList)).bind
        Shape.variation = some "Nominal".toList) ∧
    nominal_name "mt".toList "ana".toList "2017".toList "mva".toList
        "cat".toList "ggH".toList "125".toList =
      "#mt#cat#ggH#ana#2017#mva#125#".toList := by
  have h := c5_roundtrip "mt".toList "ana".toList "2017".toList "mva".toList
    "cat".toList "ggH".toList "125".toList (by decide) (by decide)
    (by decide) (by decide) (by decide) (by decide) (by decide) (by decide)
    (by decide) (by decide) (by decide) (by decide) (by decide) (by decide)
    (by decide) (by decide) (by decide) (by decide) (by decide) (by decide)
  exact ⟨h.1, h.2.1, h.2.2.1, h.2.2.2.1, h.2.2.2.2, by decide⟩

end DCP
